import Mathlib

/-!
Shallow embedding of the `runar-labs/rust-apps` repository core:

* `src/common/gateway/src/service.rs` — route registry (`RouteEntry`,
  `GatewayService::initialize_routes`, `GatewayService::extract_parameters`,
  `GatewayService::find_route`);
* `src/common/gateway/src/lib.rs` — CORS middleware
  (`CorsMiddleware::is_origin_allowed`, `CorsMiddleware::process`),
  the HTTP dispatcher (`handle_http_request`, `Next::run`) and the
  WebSocket message handler (`WebSocketHandler::handle_message`);
* `src/common/auth/backend/src/lib.rs` — `AuthService::register`;
* `src/invoice-demo/src/services/invoice.rs` — `InvoiceService::delete_invoice`.

Rust `HashMap`s are embedded as association lists with unique keys:
`insertK` is `HashMap::insert` (overwrite), `removeKey` is
`HashMap::remove`, `containsKey` is `HashMap::contains_key`.
Strings are Lean `String`s; `str::split(c)` is `rustSplit` (structural on
the character list so that everything evaluates in the kernel),
`str::starts_with` / `ends_with` are `rustStartsWith` / `rustEndsWith`,
`str::len` (bytes) is `String.utf8ByteSize`.
-/

namespace RustApps

/-- Association-list embedding of `HashMap::contains_key`. -/
def containsKey [BEq α] (l : List (α × β)) (k : α) : Bool :=
  l.any (fun p => p.1 == k)

/-- Association-list embedding of `HashMap::insert`: overwrite the value at
an existing key, otherwise append the new binding. -/
def insertK [BEq α] (l : List (α × β)) (k : α) (v : β) : List (α × β) :=
  if containsKey l k then l.map (fun p => if p.1 == k then (k, v) else p)
  else l ++ [(k, v)]

/-- Association-list embedding of `HashMap::remove` (keys are unique, so
removal is a filter). -/
def removeKey [BEq α] (l : List (α × β)) (k : α) : List (α × β) :=
  l.filter (fun p => !(p.1 == k))

/-- Association-list embedding of `HashMap::get`. -/
def lookupK [BEq α] (l : List (α × β)) (k : α) : Option β :=
  (l.find? (fun p => p.1 == k)).map (fun p => p.2)

/-- Split a character list at every occurrence of `c`, keeping empty
pieces — the semantics of Rust's `str::split(char)`. -/
def splitCharList (c : Char) : List Char → List (List Char)
  | [] => [[]]
  | x :: xs =>
    let r := splitCharList c xs
    if x == c then [] :: r
    else (x :: r.headD []) :: r.tail

/-- Rust `s.split(c)` as a list of strings (empty pieces kept). -/
def rustSplit (s : String) (c : Char) : List String :=
  (splitCharList c s.data).map (fun l => ⟨l⟩)

/-- Join character-list pieces with a separator character (used to state
that `rustSplit` pieces reassemble to the original string). -/
def joinWith (c : Char) : List (List Char) → List Char
  | [] => []
  | [x] => x
  | x :: y :: rest => x ++ c :: joinWith c (y :: rest)

/-- `l₁` is an initial run of `l₂` (character-list core of Rust
`str::starts_with`). -/
def isHeadRunOf : List Char → List Char → Bool
  | [], _ => true
  | _ :: _, [] => false
  | x :: xs, y :: ys => x == y && isHeadRunOf xs ys

/-- Rust `s.starts_with(pat)` for a string pattern. -/
def rustStartsWith (s pat : String) : Bool :=
  isHeadRunOf pat.data s.data

/-- Rust `s.ends_with(pat)` for a string pattern. -/
def rustEndsWith (s pat : String) : Bool :=
  isHeadRunOf pat.data.reverse s.data.reverse

/-- `path.split('/').filter(|s| !s.is_empty())`, as used by
`initialize_routes`, `extract_parameters` and `find_route` in
`src/common/gateway/src/service.rs`. -/
def splitPath (s : String) : List String :=
  (rustSplit s '/').filter (fun seg => seg != "")

/-- `s.trim_start_matches(':')`: drop every leading colon. -/
def trimColons (s : String) : String :=
  ⟨s.data.dropWhile (fun c => c == ':')⟩

/-- `RouteInfo` from `src/common/gateway/src/lib.rs`. -/
structure RouteInfo where
  method : String
  path : String
  handler_name : String
  middleware : Option (List String)
deriving DecidableEq

/-- `RouteEntry` from `src/common/gateway/src/service.rs`. -/
structure RouteEntry where
  method : String
  path_pattern : String
  service_name : String
  action_name : String
  path_segments : List String
  is_parameter : List Bool
  middleware : Option (List String)
deriving DecidableEq

/-- The `RouteEntry` built for one `RouteInfo` inside the loop of
`GatewayService::initialize_routes` (the caller only keeps it when the
handler name splits into exactly two parts; `getD` stands for the
in-bounds indexing `handler_parts[0]` / `handler_parts[1]` of the source,
which the length-2 guard makes safe). -/
def mkEntry (info : RouteInfo) : RouteEntry :=
  let segments := splitPath info.path
  let handler_parts := rustSplit info.handler_name '.'
  { method := info.method
    path_pattern := info.path
    service_name := handler_parts.getD 0 ""
    action_name := handler_parts.getD 1 ""
    path_segments := segments
    is_parameter := segments.map (fun s => rustStartsWith s ":")
    middleware := info.middleware }

/-- `GatewayService::initialize_routes`, restricted to its pure core: the
loop over the registered `RouteInfo`s, skipping (`continue`) every
definition whose handler name does not split into exactly two
`'.'`-separated parts and pushing the rest in registration order. -/
def init_routes : List RouteInfo → List RouteEntry
  | [] => []
  | info :: rest =>
    if (rustSplit info.handler_name '.').length == 2 then
      mkEntry info :: init_routes rest
    else
      init_routes rest

/-- The per-segment loop of `GatewayService::find_route`: position `i`
passes iff `is_parameter[i] || path_segments[i] == segment`.  The source
indexes the route's arrays by the inbound index, which is in bounds
because the segment-count check precedes the loop and both arrays of a
built entry have equal length; the parallel recursion mirrors that. -/
def segsMatch : List String → List Bool → List String → Bool
  | p :: ps, b :: bs, q :: qs => (b || p == q) && segsMatch ps bs qs
  | _, _, _ => true

/-- The per-route test of `GatewayService::find_route`: the two `continue`
guards (method mismatch unless `"*"`, segment-count mismatch) followed by
the segment loop. -/
def routeMatch (r : RouteEntry) (method : String) (qs : List String) : Bool :=
  (r.method == method || r.method == "*") &&
  (r.path_segments.length == qs.length) &&
  segsMatch r.path_segments r.is_parameter qs

/-- The loop of `GatewayService::extract_parameters` over the enumerated
inbound segments, threading the `params` map: at index `i`, when
`i < route.is_parameter.len() && route.is_parameter[i]`, insert the
binding `trim_start_matches(':')(path_segments[i]) ↦ segment`. -/
def extractLoop (r : RouteEntry) : List String → Nat → List (String × String) → List (String × String)
  | [], _, params => params
  | q :: rest, i, params =>
    let params2 :=
      if i < r.is_parameter.length && r.is_parameter.getD i false then
        insertK params (trimColons (r.path_segments.getD i "")) q
      else params
    extractLoop r rest (i + 1) params2

/-- `GatewayService::extract_parameters`. -/
def extract_parameters (r : RouteEntry) (path : String) : List (String × String) :=
  extractLoop r (splitPath path) 0 []

/-- `GatewayService::find_route`: scan the registered routes in order and
return the first one passing `routeMatch`, paired with its extracted
parameters; `none` when the list is exhausted. -/
def find_route : List RouteEntry → String → String → Option (RouteEntry × List (String × String))
  | [], _, _ => none
  | r :: rest, method, path =>
    if routeMatch r method (splitPath path) then
      some (r, extract_parameters r path)
    else
      find_route rest method path

/-! ### CORS middleware and HTTP dispatcher (`src/common/gateway/src/lib.rs`) -/

/-- `CorsConfig` from `src/common/gateway/src/lib.rs`. -/
structure CorsConfig where
  allowed_origins : List String
  allow_credentials : Bool
deriving DecidableEq

/-- `s.trim_start_matches("*.")`: strip every leading occurrence of the
two-character pattern `*.`. -/
def stripStarDot : List Char → List Char
  | '*' :: '.' :: rest => stripStarDot rest
  | l => l

/-- `trim_start_matches("*.")` on strings. -/
def trimStarDot (s : String) : String :=
  ⟨stripStarDot s.data⟩

/-- The closure body inside `CorsMiddleware::is_origin_allowed`: `"*"`
matches everything; otherwise exact match; otherwise an entry with the
leading `*.` stripped is compared with `origin.ends_with`. -/
def originRuleAllows (allowed origin : String) : Bool :=
  if allowed == "*" then true
  else if allowed == origin then true
  else if rustStartsWith allowed "*." then
    rustEndsWith origin (trimStarDot allowed)
  else false

/-- `CorsMiddleware::is_origin_allowed`. -/
def is_origin_allowed (config : CorsConfig) (origin : String) : Bool :=
  config.allowed_origins.any (fun allowed => originRuleAllows allowed origin)

/-- An HTTP request as the gateway code reads it: method, URI path and
header list. -/
structure HttpRequest where
  method : String
  path : String
  headers : List (String × String)
deriving DecidableEq

/-- An HTTP response: status code, header list (in insertion order) and
body text. -/
structure HttpResponse where
  status : Nat
  headers : List (String × String)
  body : String
deriving DecidableEq

/-- `req.headers().get(ORIGIN) ... unwrap_or("")` in
`CorsMiddleware::process`. -/
def originOf (req : HttpRequest) : String :=
  ((req.headers.find? (fun h => h.1 == "origin")).map (fun h => h.2)).getD ""

/-- `HeaderMap::insert`: replace any existing value for the name. -/
def insertHeader (hs : List (String × String)) (k v : String) : List (String × String) :=
  hs.filter (fun h => !(h.1 == k)) ++ [(k, v)]

/-- The headers the preflight branch of `CorsMiddleware::process` attaches
when the origin is allowed, in the order the builder adds them. -/
def corsPreflightHeaders (config : CorsConfig) (origin : String) : List (String × String) :=
  [("access-control-allow-origin", origin),
   ("access-control-allow-methods", "GET, POST, PUT, DELETE, OPTIONS"),
   ("access-control-allow-headers", "Content-Type, Authorization"),
   ("access-control-max-age", "86400")] ++
  (if config.allow_credentials then [("access-control-allow-credentials", "true")] else [])

/-- A middleware stage, as in `trait Middleware`: a request plus the
next-stage continuation, producing a response or a failure
(`anyhow::Result` is `Except String`). -/
def MiddlewareFn : Type :=
  HttpRequest → (HttpRequest → Except String HttpResponse) → Except String HttpResponse

/-- `CorsMiddleware::process`: on `OPTIONS` build a `200` empty-body
response, attaching the CORS headers only when a non-empty origin passes
the allow-list, and return it without calling the continuation; on other
methods run the continuation and, when the origin is allowed, overwrite
its `access-control-allow-origin` (and credentials) headers. -/
def corsProcess (config : CorsConfig) : MiddlewareFn := fun req next =>
  let origin := originOf req
  if req.method == "OPTIONS" then
    if origin != "" && is_origin_allowed config origin then
      .ok { status := 200, headers := corsPreflightHeaders config origin, body := "" }
    else
      .ok { status := 200, headers := [], body := "" }
  else
    match next req with
    | .error e => .error e
    | .ok resp =>
      if origin != "" && is_origin_allowed config origin then
        let hs1 := insertHeader resp.headers "access-control-allow-origin" origin
        let hs2 :=
          if config.allow_credentials then
            insertHeader hs1 "access-control-allow-credentials" "true"
          else hs1
        .ok { resp with headers := hs2 }
      else
        .ok resp

/-- `Next::run`: peel the first middleware off the chain, or call the
terminal handler when the chain is empty. -/
def runNext (middlewares : List MiddlewareFn)
    (handler : HttpRequest → Except String HttpResponse) (req : HttpRequest) :
    Except String HttpResponse :=
  match middlewares with
  | [] => handler req
  | m :: rest => m req (runNext rest handler)

/-- The `error_response` closure in `handle_http_request`: a status plus a
JSON body `{"error":"<message>"}` with a `content-type` header. -/
def errorResponse (status : Nat) (message : String) : HttpResponse :=
  { status := status
    headers := [("content-type", "application/json")]
    body := "\x7b\"error\":\"" ++ message ++ "\"\x7d" }

/-- The route-table lookup in `handle_http_request`:
`state.routes.get(&(method, path))` on the `HashMap` built by
`build_routes`, embedded as an association-list find on the exact
`(method, path)` key. -/
def lookupRouteKey (routes : List ((String × String) × (HttpRequest → Except String HttpResponse)))
    (method path : String) : Option (HttpRequest → Except String HttpResponse) :=
  (routes.find? (fun e => e.1 == (method, path))).map (fun e => e.2)

/-- `handle_http_request` from `src/common/gateway/src/lib.rs`: look the
exact `(method, path)` key up; on a hit run the middleware chain around
the handler, converting an `Err` into a 500 `Internal server error`
response; on a miss return the 404 `Route not found` response without
touching the chain.  The Rust signature is
`Result<Response<Body>, Infallible>`: the embedding is a total function
into `HttpResponse`. -/
def handle_http_request
    (routes : List ((String × String) × (HttpRequest → Except String HttpResponse)))
    (middlewares : List MiddlewareFn) (req : HttpRequest) : HttpResponse :=
  match lookupRouteKey routes req.method req.path with
  | some handler =>
    match runNext middlewares handler req with
    | .ok response => response
    | .error _ => errorResponse 500 "Internal server error"
  | none => errorResponse 404 "Route not found"

/-! ### WebSocket message handling (`src/common/gateway/src/lib.rs`) -/

/-- JSON values (`serde_json::Value`). -/
inductive Json where
  | null
  | bool (b : Bool)
  | num (n : Int)
  | str (s : String)
  | arr (items : List Json)
  | obj (fields : List (String × Json))

/-- `serde_json::Value::get(key)` on an object. -/
def Json.getField : Json → String → Option Json
  | .obj fields, k => (fields.find? (fun p => p.1 == k)).map (fun p => p.2)
  | _, _ => none

/-- `serde_json::Value::as_str`. -/
def Json.asStr : Json → Option String
  | .str s => some s
  | _ => none

/-- The message-type dispatch of `WebSocketHandler::handle_message`, after
the text has parsed as JSON and with the addressed connection present (the
claim's "active upgraded connection"): the returned value is the reply
sent on that connection, `none` when no reply is sent (unknown `type`). -/
def handleParsedMessage (message : Json) : Option Json :=
  match (message.getField "type").bind Json.asStr with
  | some "ping" => some (Json.obj [("type", Json.str "pong")])
  | some "action" =>
    let action_id := (message.getField "id").bind Json.asStr
    let action := (message.getField "action").bind Json.asStr
    let params := message.getField "params"
    match action_id, action, params with
    | some aid, some _, some ps =>
      some (Json.obj [("id", Json.str aid), ("success", Json.bool true), ("data", ps)])
    | _, _, _ =>
      some (Json.obj
        [("id", Json.str (action_id.getD "unknown")),
         ("success", Json.bool false),
         ("error", Json.obj
           [("message", Json.str "Invalid action request"), ("code", Json.num 400)])])
  | _ => none

/-! ### AuthService (`src/common/auth/backend/src/lib.rs`) -/

/-- `RegisterRequest`. -/
structure RegisterRequest where
  username : String
  email : String
  password : String
deriving DecidableEq

/-- `User` (UUIDs as `Nat`, timestamps as `Nat`; the password hash is
whatever the bcrypt `hash` function returned). -/
structure UserM where
  id : Nat
  username : String
  email : String
  password_hash : String
  created_at : Nat
  updated_at : Nat
deriving DecidableEq

/-- The three maps held by `AuthService`. -/
structure AuthState where
  users : List (Nat × UserM)
  username_index : List (String × Nat)
  email_index : List (String × Nat)
deriving DecidableEq

/-- `AuthResponse`. -/
structure AuthResponseM where
  user : UserM
  token : String
deriving DecidableEq

/-- `AuthService::register`.  `hashFn` stands for `bcrypt::hash`,
`tokenFn` for `create_token`, `now` for `Utc::now()` and `freshId` for
`Uuid::new_v4()` — all external effects supplied as parameters.  The
three error returns (short password, username taken, email taken) happen
before any map is touched; the mutation block updates all three maps. -/
def registerUser (hashFn : String → String) (tokenFn : Nat → String)
    (now freshId : Nat) (st : AuthState) (req : RegisterRequest) :
    Except String AuthResponseM × AuthState :=
  if req.password.utf8ByteSize < 8 then
    (.error "Password must be at least 8 characters long", st)
  else if containsKey st.username_index req.username then
    (.error "Username already exists", st)
  else if containsKey st.email_index req.email then
    (.error "Email already exists", st)
  else
    let user : UserM :=
      { id := freshId, username := req.username, email := req.email
        password_hash := hashFn req.password, created_at := now, updated_at := now }
    let st2 : AuthState :=
      { users := insertK st.users user.id user
        username_index := insertK st.username_index user.username user.id
        email_index := insertK st.email_index user.email user.id }
    (.ok { user := user, token := tokenFn user.id }, st2)

/-! ### InvoiceService (`src/invoice-demo/src/services/invoice.rs`) -/

/-- The `ServiceResponse` constructors used by the invoice actions. -/
inductive ServiceResponseM (α : Type) where
  | success (message : String)
  | error (message : String)
  | json (value : α)

/-- `InvoiceService::delete_invoice`, after `invoice_id` has been
extracted from the request: remove the id from the invoice map (a no-op
when absent) and answer `success`.  The stored invoice type is a type
parameter — deletion never inspects the stored value. -/
def delete_invoice (invoices : List (String × α)) (invoice_id : String) :
    ServiceResponseM α × List (String × α) :=
  (ServiceResponseM.success "Invoice deleted successfully", removeKey invoices invoice_id)

/-! ### Spec-side predicate (for the refinement claim about PathMatcher)

`specPathMatch` is written from the specification's words (spec §4.1), to
be compared with the code-side `routeMatch`: the inbound verb equals the
declared verb or the declared verb is the wildcard; after empty segments
are discarded on both sides the segment counts agree; and every
non-parameter pattern segment equals the corresponding inbound segment. -/

/-- Spec §4.1 wording of a route match (parameter sigil = leading `:`). -/
def specPathMatch (routeMethod pattern method path : String) : Prop :=
  (method = routeMethod ∨ routeMethod = "*") ∧
  (splitPath pattern).length = (splitPath path).length ∧
  ∀ i, i < (splitPath pattern).length →
    rustStartsWith ((splitPath pattern).getD i "") ":" = false →
    (splitPath pattern).getD i "" = (splitPath path).getD i ""

/-! ### Concrete fixtures used by witnesses and counterexamples -/

/-- A parameter route `GET /users/:id -> users.get`. -/
def usersParamInfo : RouteInfo := ⟨"GET", "/users/:id", "users.get", none⟩

/-- A literal route `GET /users/42 -> users.get42`, differing from
`usersParamInfo` only in parameter-vs-literal at one position. -/
def usersLiteralInfo : RouteInfo := ⟨"GET", "/users/42", "users.get42", none⟩

/-- A route definition whose handler name is a lone dot: it splits into
two empty parts. -/
def dotRouteInfo : RouteInfo := ⟨"GET", "/things", ".", none⟩

/-- CORS allow-list holding exactly the wildcard-domain entry. -/
def wildcardExampleConfig : CorsConfig := ⟨["*.example.com"], false⟩

/-- CORS allow-list holding one exact origin, credentials off. -/
def corsExactConfig : CorsConfig := ⟨["https://app.ok.com"], false⟩

/-- Preflight request presenting the allowed origin. -/
def corsAllowedReq : HttpRequest :=
  ⟨"OPTIONS", "/api/data", [("origin", "https://app.ok.com")]⟩

/-- Preflight request presenting an origin outside the allow-list. -/
def corsDisallowedReq : HttpRequest :=
  ⟨"OPTIONS", "/api/data", [("origin", "https://evil.com")]⟩

/-- A recognizable response the continuation would produce. -/
def contResponse : HttpResponse := ⟨418, [("x-continuation", "ran")], "continuation body"⟩

/-- A continuation that always answers `contResponse`. -/
def contNext : HttpRequest → Except String HttpResponse := fun _ => .ok contResponse

/-- The placeholder success response of a registered route handler. -/
def okResponse : HttpResponse :=
  ⟨200, [("content-type", "application/json")], "\x7b\"route\":\"/a\"\x7d"⟩

/-- A route handler that always succeeds with `okResponse`. -/
def handlerA : HttpRequest → Except String HttpResponse := fun _ => .ok okResponse

/-- A middleware stage that fails without calling its continuation. -/
def failingStage : MiddlewareFn := fun _ _ => .error "middleware failure"

/-- A request hitting the `("GET", "/a")` route key. -/
def reqA : HttpRequest := ⟨"GET", "/a", []⟩

/-- A one-route table keyed exactly by `("GET", "/a")`. -/
def routesA : List ((String × String) × (HttpRequest → Except String HttpResponse)) :=
  [(("GET", "/a"), handlerA)]

/-- An action message with correlation id `req-1` and params `{"x":"1"}`. -/
def actionMsg (action : String) : Json :=
  Json.obj [("type", Json.str "action"), ("id", Json.str "req-1"),
            ("action", Json.str action), ("params", Json.obj [("x", Json.str "1")])]

/-- Auth service state with no users registered. -/
def emptyAuthState : AuthState := ⟨[], [], []⟩

/-- A registration request whose password has fewer than 8 bytes. -/
def shortPwReq : RegisterRequest := ⟨"alice", "alice@example.com", "short"⟩

/-! ## Theorems -/

/-- The segment loop over a pattern whose parameter flags are computed by
`rustStartsWith · ":"` (as `mkEntry` computes them) accepts equal-length
inbound segments exactly when every non-parameter position agrees. -/
lemma segsMatch_map_iff (f : String → Bool) :
    ∀ (ps qs : List String), ps.length = qs.length →
      (segsMatch ps (ps.map f) qs = true ↔
        ∀ i, i < ps.length → f (ps.getD i "") = false → ps.getD i "" = qs.getD i "") := by
  intro ps
  induction ps with
  | nil =>
    intro qs h
    simp [segsMatch]
  | cons p ps ih =>
    intro qs h
    cases qs with
    | nil => simp at h
    | cons q qs =>
      have h' : ps.length = qs.length := by simpa using h
      have hstep : segsMatch (p :: ps) ((p :: ps).map f) (q :: qs)
          = ((f p || p == q) && segsMatch ps (ps.map f) qs) := rfl
      rw [hstep, Bool.and_eq_true, Bool.or_eq_true, beq_iff_eq, ih qs h']
      constructor
      · rintro ⟨h0, hrec⟩ i hi hf
        cases i with
        | zero =>
          simp only [List.getD_cons_zero] at hf ⊢
          rcases h0 with h0 | h0
          · rw [hf] at h0; exact absurd h0 (by simp)
          · exact h0
        | succ j =>
          simp only [List.getD_cons_succ] at hf ⊢
          exact hrec j (by simpa using Nat.lt_of_succ_lt_succ (by simpa using hi)) hf
      · intro hall
        constructor
        · by_cases hfp : f p = true
          · exact Or.inl hfp
          · refine Or.inr ?_
            have := hall 0 (by simp) ?_
            · simpa using this
            · simpa using Bool.eq_false_iff.mpr hfp
        · intro j hj hf
          have := hall (j + 1) (by simpa using Nat.succ_lt_succ hj)
            (by simpa using hf)
          simpa using this

/-- Claim C2: a route built from a registered definition matches an
inbound method and path exactly when the verb agrees (or the route's verb
is `"*"`), the empty-segment-stripped segment counts agree, and every
non-parameter pattern segment equals the corresponding inbound segment
(the spec-side predicate `specPathMatch`). -/
theorem route_match_agrees_with_spec (info : RouteInfo) (m p : String) :
    routeMatch (mkEntry info) m (splitPath p) = true ↔
      specPathMatch info.method info.path m p := by
  have hfields : (mkEntry info).method = info.method ∧
      (mkEntry info).path_segments = splitPath info.path ∧
      (mkEntry info).is_parameter = (splitPath info.path).map (fun s => rustStartsWith s ":") :=
    ⟨rfl, rfl, rfl⟩
  unfold routeMatch specPathMatch
  rw [hfields.1, hfields.2.1, hfields.2.2]
  rw [Bool.and_eq_true, Bool.and_eq_true, Bool.or_eq_true, beq_iff_eq, beq_iff_eq]
  constructor
  · rintro ⟨⟨hm, hlen⟩, hseg⟩
    rcases hm with hm | hm
    · have hlen' : (splitPath info.path).length = (splitPath p).length :=
        beq_iff_eq.mp hlen
      exact ⟨Or.inl hm.symm, hlen',
        (segsMatch_map_iff _ _ _ hlen').mp hseg⟩
    · have hlen' : (splitPath info.path).length = (splitPath p).length :=
        beq_iff_eq.mp hlen
      exact ⟨Or.inr hm, hlen',
        (segsMatch_map_iff _ _ _ hlen').mp hseg⟩
  · rintro ⟨hm, hlen, hseg⟩
    refine ⟨⟨?_, by simpa using hlen⟩, (segsMatch_map_iff _ _ _ hlen).mpr hseg⟩
    rcases hm with hm | hm
    · exact Or.inl hm.symm
    · exact Or.inr hm

/-- Witness for C2: the concrete route `GET /users/:id` and request
`GET /users/42` satisfy the spec-side predicate via the code-side match. -/
theorem route_match_agrees_with_spec_witness :
    specPathMatch "GET" "/users/:id" "GET" "/users/42" :=
  (route_match_agrees_with_spec usersParamInfo "GET" "/users/42").mp (by decide)

/-- Claim C1: `find_route` scans the registered routes in registration
order: it answers `none` exactly when no route passes the match test, any
hit is a matching route preceded only by non-matching routes and is paired
with its extracted parameters, and a matching head is always the route
returned (so of two routes both matching — e.g. parameter-vs-literal —
the first-registered one wins). -/
theorem find_route_scans_in_order (routes : List RouteEntry) (m p : String) :
    (find_route routes m p = none ↔
      ∀ r ∈ routes, routeMatch r m (splitPath p) = false)
  ∧ (∀ r ps, find_route routes m p = some (r, ps) →
      ps = extract_parameters r p ∧ routeMatch r m (splitPath p) = true ∧
      ∃ pre post, routes = pre ++ r :: post ∧
        ∀ r2 ∈ pre, routeMatch r2 m (splitPath p) = false)
  ∧ (∀ r rest, routes = r :: rest → routeMatch r m (splitPath p) = true →
      find_route routes m p = some (r, extract_parameters r p)) := by
  induction routes with
  | nil =>
    refine ⟨by simp [find_route], ?_, ?_⟩
    · intro r ps h; simp [find_route] at h
    · intro r rest h; exact absurd h (by simp)
  | cons r rest ih =>
    by_cases h : routeMatch r m (splitPath p) = true
    · refine ⟨?_, ?_, ?_⟩
      · constructor
        · intro hn; rw [find_route, if_pos h] at hn; exact absurd hn (by simp)
        · intro hall; exact absurd (hall r (by simp)) (by simp [h])
      · intro r2 ps hsome
        rw [find_route, if_pos h] at hsome
        have hr : r = r2 ∧ extract_parameters r p = ps := by
          have := Option.some.inj hsome
          exact ⟨congrArg Prod.fst this, congrArg Prod.snd this⟩
        rcases hr with ⟨hr1, hr2⟩
        subst hr1
        exact ⟨hr2.symm, h, [], rest, rfl, by simp⟩
      · intro r0 rest0 heq hm
        have hr0 : r0 = r := by
          cases heq; rfl
        subst hr0
        rw [find_route, if_pos hm]
    · have hfalse : routeMatch r m (splitPath p) = false := by
        cases hb : routeMatch r m (splitPath p)
        · rfl
        · exact absurd hb h
      have hstep : find_route (r :: rest) m p = find_route rest m p := by
        rw [find_route, if_neg h]
      refine ⟨?_, ?_, ?_⟩
      · rw [hstep, ih.1]
        constructor
        · intro hall r2 hr2
          rcases List.mem_cons.mp hr2 with hr2 | hr2
          · subst hr2; exact hfalse
          · exact hall r2 hr2
        · intro hall r2 hr2; exact hall r2 (List.mem_cons_of_mem _ hr2)
      · intro r2 ps hsome
        rw [hstep] at hsome
        rcases ih.2.1 r2 ps hsome with ⟨hps, hmatch, pre, post, hsplit, hpre⟩
        refine ⟨hps, hmatch, r :: pre, post, by rw [hsplit, List.cons_append], ?_⟩
        intro r3 hr3
        rcases List.mem_cons.mp hr3 with hr3 | hr3
        · subst hr3; exact hfalse
        · exact hpre r3 hr3
      · intro r0 rest0 heq hm
        have hr0 : r0 = r := by cases heq; rfl
        subst hr0
        exact absurd hm h

/-- Witness for C1: the path `/users/42` satisfies both the
parameter route `GET /users/:id` and the literal route `GET /users/42`;
registered in that order, lookup returns the first one with its
parameters. -/
theorem find_route_scans_in_order_witness :
    routeMatch (mkEntry usersLiteralInfo) "GET" (splitPath "/users/42") = true ∧
    find_route [mkEntry usersParamInfo, mkEntry usersLiteralInfo] "GET" "/users/42"
      = some (mkEntry usersParamInfo, extract_parameters (mkEntry usersParamInfo) "/users/42") :=
  ⟨by decide,
    (find_route_scans_in_order [mkEntry usersParamInfo, mkEntry usersLiteralInfo]
        "GET" "/users/42").2.2
      (mkEntry usersParamInfo) [mkEntry usersLiteralInfo] rfl (by decide)⟩

/-- A binding present after a `HashMap::insert` is either the inserted
binding or a pre-existing one. -/
lemma mem_insertK {l : List (String × String)} {k v a b : String}
    (h : (a, b) ∈ insertK l k v) : (a, b) ∈ l ∨ (a = k ∧ b = v) := by
  unfold insertK at h
  by_cases hc : containsKey l k = true
  · rw [if_pos hc] at h
    rcases List.mem_map.mp h with ⟨q, hq, he⟩
    by_cases hk : (q.1 == k) = true
    · rw [if_pos hk] at he
      right
      exact ⟨(congrArg Prod.fst he).symm, (congrArg Prod.snd he).symm⟩
    · rw [if_neg hk] at he
      left
      rw [← he]
      exact hq
  · rw [if_neg hc] at h
    rcases List.mem_append.mp h with h | h
    · exact Or.inl h
    · right
      have := List.mem_singleton.mp h
      exact ⟨congrArg Prod.fst this, congrArg Prod.snd this⟩

/-- Every binding produced by the extraction loop either was already in
the accumulator or is the verbatim inbound segment at a parameter
position. -/
lemma extractLoop_mem (r : RouteEntry) :
    ∀ (qs : List String) (i : Nat) (params : List (String × String)) (k v : String),
      (k, v) ∈ extractLoop r qs i params →
      (k, v) ∈ params ∨
      ∃ j, j < qs.length ∧ i + j < r.is_parameter.length ∧
        r.is_parameter.getD (i + j) false = true ∧
        k = trimColons (r.path_segments.getD (i + j) "") ∧
        v = qs.getD j "" := by
  intro qs
  induction qs with
  | nil =>
    intro i params k v h
    exact Or.inl h
  | cons q rest ih =>
    intro i params k v h
    have hstep : extractLoop r (q :: rest) i params
        = extractLoop r rest (i + 1)
            (if i < r.is_parameter.length && r.is_parameter.getD i false then
              insertK params (trimColons (r.path_segments.getD i "")) q
            else params) := rfl
    rw [hstep] at h
    rcases ih (i + 1) _ k v h with hmem | ⟨j, hj, hlt, hp, hk, hv⟩
    · by_cases hg : (decide (i < r.is_parameter.length) && r.is_parameter.getD i false) = true
      · rw [if_pos hg] at hmem
        rcases mem_insertK hmem with hmem2 | ⟨hk, hv⟩
        · exact Or.inl hmem2
        · right
          have hg' := hg
          rw [Bool.and_eq_true] at hg'
          obtain ⟨hg1, hg2⟩ := hg'
          refine ⟨0, by simp, by simpa using of_decide_eq_true hg1, by simpa using hg2,
            by simpa using hk, by simpa using hv⟩
      · rw [if_neg hg] at hmem
        exact Or.inl hmem
    · right
      have hidx : i + (j + 1) = i + 1 + j := by omega
      refine ⟨j + 1, by simpa using Nat.succ_lt_succ hj, ?_, ?_, ?_, ?_⟩
      · rw [hidx]; exact hlt
      · rw [hidx]; exact hp
      · rw [hidx]; exact hk
      · simpa using hv

/-- Claim C3: every binding extracted from a matched path is the exact
literal text of the inbound segment at a parameter position (no decoding
or transformation), and the concrete dispatch of `/users/42` against
`/users/:id` yields exactly `{"id": "42"}`. -/
theorem extract_parameters_binds_verbatim :
    (∀ (r : RouteEntry) (path k v : String),
      (k, v) ∈ extract_parameters r path →
      ∃ i, i < (splitPath path).length ∧ i < r.is_parameter.length ∧
        r.is_parameter.getD i false = true ∧
        k = trimColons (r.path_segments.getD i "") ∧
        v = (splitPath path).getD i "")
  ∧ extract_parameters (mkEntry usersParamInfo) "/users/42" = [("id", "42")] := by
  constructor
  · intro r path k v h
    unfold extract_parameters at h
    rcases extractLoop_mem r (splitPath path) 0 [] k v h with hmem | ⟨j, hj, hlt, hp, hk, hv⟩
    · exact absurd hmem (List.not_mem_nil _)
    · exact ⟨j, hj, by simpa using hlt, by simpa using hp, by simpa using hk, hv⟩
  · decide

/-- Witness for C3: the binding `("id", "42")` extracted from `/users/42`
comes verbatim from the parameter position of `/users/:id`. -/
theorem extract_parameters_binds_verbatim_witness :
    ∃ i, i < (splitPath "/users/42").length ∧
      i < (mkEntry usersParamInfo).is_parameter.length ∧
      (mkEntry usersParamInfo).is_parameter.getD i false = true ∧
      "id" = trimColons ((mkEntry usersParamInfo).path_segments.getD i "") ∧
      "42" = (splitPath "/users/42").getD i "" :=
  extract_parameters_binds_verbatim.1 (mkEntry usersParamInfo) "/users/42" "id" "42" (by decide)

/-- Counterexample to claim C4: the allow-list entry `*.example.com` also
accepts `https://example.com`, an origin that does not end in
`.example.com` — the code strips the dot along with the `*`. -/
theorem wildcard_matches_bare_domain :
    is_origin_allowed wildcardExampleConfig "https://example.com" = true ∧
    rustEndsWith "https://example.com" ".example.com" = false := by
  exact ⟨by decide, by decide⟩

/-- Claim C4 as amended: the entry `*.example.com` matches exactly the
origins whose text ends in `example.com` — the subdomain dot is not
required, so `https://a.example.com` and `https://example.com` are both
accepted. -/
theorem wildcard_entry_matches_suffix (origin : String) :
    is_origin_allowed wildcardExampleConfig origin = rustEndsWith origin "example.com" := by
  unfold is_origin_allowed wildcardExampleConfig originRuleAllows
  simp only [List.any_cons, List.any_nil, Bool.or_false]
  rw [if_neg (by decide)]
  by_cases h : origin = "*.example.com"
  · subst h
    rw [if_pos (by decide)]
    decide
  · rw [if_neg (by simpa using fun he => h he.symm),
      if_pos (by decide),
      show trimStarDot "*.example.com" = "example.com" from by decide]

/-- Witness for C4 (amended): evaluated at `https://a.example.com`, the
wildcard entry accepts the origin. -/
theorem wildcard_entry_matches_suffix_witness :
    is_origin_allowed wildcardExampleConfig "https://a.example.com"
      = rustEndsWith "https://a.example.com" "example.com" :=
  wildcard_entry_matches_suffix "https://a.example.com"

/-- Counterexample to claim C5: against a disallowed origin the preflight
branch still answers its own empty-bodied response instead of forwarding
to the continuation — the continuation's (distinct) response is never
returned. -/
theorem cors_preflight_never_forwards :
    corsProcess corsExactConfig corsDisallowedReq contNext
      = .ok { status := 200, headers := [], body := "" } ∧
    contNext corsDisallowedReq = .ok contResponse ∧
    ({ status := 200, headers := [], body := "" } : HttpResponse) ≠ contResponse := by
  exact ⟨rfl, rfl, by decide⟩

/-- Claim C5 as amended: on a preflight (`OPTIONS`) request the CORS stage
always short-circuits with an empty-bodied `200` response, for any
continuation; the response carries the allow-origin/allow-methods/
allow-headers/max-age headers (plus allow-credentials when configured)
exactly when a non-empty origin passes the allow-list, and carries no
cross-origin headers otherwise. -/
theorem cors_preflight_short_circuits (config : CorsConfig) (req : HttpRequest)
    (next : HttpRequest → Except String HttpResponse) (hm : req.method = "OPTIONS") :
    (originOf req ≠ "" → is_origin_allowed config (originOf req) = true →
      corsProcess config req next
        = .ok { status := 200, headers := corsPreflightHeaders config (originOf req), body := "" })
  ∧ ((originOf req = "" ∨ is_origin_allowed config (originOf req) = false) →
      corsProcess config req next = .ok { status := 200, headers := [], body := "" }) := by
  unfold corsProcess
  rw [hm]
  rw [if_pos (by decide)]
  constructor
  · intro h1 h2
    rw [if_pos]
    rw [Bool.and_eq_true]
    exact ⟨by simpa using h1, h2⟩
  · intro h
    rw [if_neg]
    rw [Bool.and_eq_true]
    rintro ⟨hne, hallow⟩
    rcases h with h | h
    · rw [h] at hne; exact absurd hne (by simp)
    · rw [h] at hallow; exact absurd hallow (by simp)

/-- Witness for C5 (amended): the concrete preflight with the allowed
exact-match origin short-circuits with the four CORS headers and no
allow-credentials header. -/
theorem cors_preflight_short_circuits_witness :
    corsProcess corsExactConfig corsAllowedReq contNext
      = .ok { status := 200
              headers := corsPreflightHeaders corsExactConfig (originOf corsAllowedReq)
              body := "" } :=
  (cors_preflight_short_circuits corsExactConfig corsAllowedReq contNext rfl).1
    (by decide) (by decide)

/-- Claim C6: the dispatcher always answers.  When the route key is
absent it answers `404 Route not found` for every middleware chain (so no
middleware runs for unmatched routes); when a handler is found, a failing
chain is converted to the `500 Internal server error` structured body and
a succeeding chain's response is returned as-is. -/
theorem dispatch_always_answers
    (routes : List ((String × String) × (HttpRequest → Except String HttpResponse)))
    (middlewares : List MiddlewareFn) (req : HttpRequest) :
    (lookupRouteKey routes req.method req.path = none →
      ∀ mws2, handle_http_request routes mws2 req = errorResponse 404 "Route not found")
  ∧ (∀ h, lookupRouteKey routes req.method req.path = some h →
      (∀ e, runNext middlewares h req = .error e →
        handle_http_request routes middlewares req
          = errorResponse 500 "Internal server error")
    ∧ (∀ resp, runNext middlewares h req = .ok resp →
        handle_http_request routes middlewares req = resp)) := by
  constructor
  · intro hnone mws2
    unfold handle_http_request
    rw [hnone]
  · intro h hsome
    constructor
    · intro e he
      unfold handle_http_request
      rw [hsome]
      show (match runNext middlewares h req with
        | Except.ok response => response
        | Except.error _ => errorResponse 500 "Internal server error")
        = errorResponse 500 "Internal server error"
      rw [he]
    · intro resp hok
      unfold handle_http_request
      rw [hsome]
      show (match runNext middlewares h req with
        | Except.ok response => response
        | Except.error _ => errorResponse 500 "Internal server error") = resp
      rw [hok]

/-- Witness for C6: a registered route whose chain contains a failing
stage answers the structured 500 response; the same request against an
empty table answers the structured 404 response. -/
theorem dispatch_always_answers_witness :
    handle_http_request routesA [failingStage] reqA
      = errorResponse 500 "Internal server error" ∧
    handle_http_request [] [failingStage] reqA = errorResponse 404 "Route not found" :=
  ⟨((dispatch_always_answers routesA [failingStage] reqA).2 handlerA rfl).1
      "middleware failure" rfl,
    (dispatch_always_answers [] [failingStage] reqA).1 rfl [failingStage]⟩

/-- `splitCharList` never produces the empty list of pieces. -/
lemma splitCharList_ne_nil (c : Char) (l : List Char) : splitCharList c l ≠ [] := by
  cases l with
  | nil => simp [splitCharList]
  | cons x xs =>
    rw [splitCharList]
    by_cases h : (x == c) = true
    · rw [if_pos h]; simp
    · rw [if_neg h]; simp

/-- Joining the pieces of `splitCharList` with the separator restores the
original character list. -/
lemma joinWith_splitCharList (c : Char) : ∀ l : List Char, joinWith c (splitCharList c l) = l := by
  intro l
  induction l with
  | nil => rfl
  | cons x xs ih =>
    rcases hne : splitCharList c xs with _ | ⟨y, ys⟩
    · exact absurd hne (splitCharList_ne_nil c xs)
    · rw [hne] at ih
      by_cases h : (x == c) = true
      · have hx : x = c := by simpa using h
        have hstep : splitCharList c (x :: xs) = [] :: splitCharList c xs := by
          rw [splitCharList, if_pos h]
        rw [hstep, hne, joinWith, ih, hx]
        simp
      · have hstep : splitCharList c (x :: xs)
            = (x :: (splitCharList c xs).headD []) :: (splitCharList c xs).tail := by
          rw [splitCharList, if_neg h]
        rw [hstep, hne]
        cases ys with
        | nil =>
          simp only [List.headD_cons, List.tail_cons]
          have hy : y = xs := ih
          rw [show joinWith c [x :: y] = x :: y from rfl, hy]
        | cons z zs =>
          simp only [List.headD_cons, List.tail_cons]
          rw [joinWith] at ih
          rw [joinWith, ← ih]
          simp

/-- When Rust's `split('.')` yields exactly two pieces, they reassemble
with a dot to the original handler name. -/
lemma rustSplit_two_parts {s a b : String} (h : rustSplit s '.' = [a, b]) :
    a ++ "." ++ b = s := by
  unfold rustSplit at h
  rcases hsp : splitCharList '.' s.data with _ | ⟨l1, rest⟩
  · rw [hsp] at h; simp at h
  · rcases rest with _ | ⟨l2, rest2⟩
    · rw [hsp] at h; simp at h
    · rcases rest2 with _ | ⟨l3, rest3⟩
      · rw [hsp] at h
        simp only [List.map_cons, List.map_nil, List.cons.injEq, and_true] at h
        obtain ⟨ha, hb⟩ := h
        have hj := joinWith_splitCharList '.' s.data
        rw [hsp] at hj
        rw [show joinWith '.' [l1, l2] = l1 ++ '.' :: l2 from rfl] at hj
        apply String.ext
        rw [← ha, ← hb]
        simpa using hj
      · rw [hsp] at h; simp at h

/-- Counterexample to claim C7: a route definition whose handler name is
a lone dot survives the build with empty service and action names — the
build does not validate that target names are non-empty. -/
theorem empty_target_names_survive :
    init_routes [dotRouteInfo] = [mkEntry dotRouteInfo] ∧
    (mkEntry dotRouteInfo).service_name = "" ∧
    (mkEntry dotRouteInfo).action_name = "" := by
  exact ⟨by decide, by decide, by decide⟩

/-- Claim C7 as amended: building the route table validates only that a
definition's handler name splits into exactly two `'.'`-separated parts
(which may be empty); failing definitions are dropped without failing the
build, and the survivors are stored in registration order, each carrying
the two parts — which reassemble to the original handler name — as its
service and action names. -/
theorem init_routes_two_part_validation :
    (∀ infos : List RouteInfo,
      init_routes infos
        = (infos.filter
            (fun info => (rustSplit info.handler_name '.').length == 2)).map mkEntry)
  ∧ (∀ (info : RouteInfo) (a b : String), rustSplit info.handler_name '.' = [a, b] →
      (mkEntry info).service_name = a ∧ (mkEntry info).action_name = b ∧
      a ++ "." ++ b = info.handler_name) := by
  constructor
  · intro infos
    induction infos with
    | nil => rfl
    | cons info rest ih =>
      by_cases h : ((rustSplit info.handler_name '.').length == 2) = true
      · rw [init_routes, if_pos h, ih]
        simp [List.filter_cons, h]
      · have hf : ((rustSplit info.handler_name '.').length == 2) = false := by
          simpa using h
        rw [init_routes, if_neg h, ih]
        simp [List.filter_cons, hf]
  · intro info a b h
    refine ⟨?_, ?_, rustSplit_two_parts h⟩
    · show (rustSplit info.handler_name '.').getD 0 "" = a
      rw [h]; rfl
    · show (rustSplit info.handler_name '.').getD 1 "" = b
      rw [h]; rfl

/-- Witness for C7 (amended): the handler name `users.get` splits into
`users` and `get`, which the surviving entry stores and which reassemble
to the registered handler name. -/
theorem init_routes_two_part_validation_witness :
    (mkEntry usersParamInfo).service_name = "users" ∧
    (mkEntry usersParamInfo).action_name = "get" ∧
    "users" ++ "." ++ "get" = usersParamInfo.handler_name :=
  init_routes_two_part_validation.2 usersParamInfo "users" "get" (by decide)

/-- Claim C8 (evaluating the code at the failing input): on an active
connection, an action message is answered by echoing the request's
`params` back as `data` with `success: true`; the reply is identical for
two different action names, so no Business Service action is consulted. -/
theorem ws_action_echoes_params :
    handleParsedMessage (actionMsg "profile.get")
      = some (Json.obj [("id", Json.str "req-1"), ("success", Json.bool true),
                        ("data", Json.obj [("x", Json.str "1")])])
  ∧ handleParsedMessage (actionMsg "no_such.action")
      = handleParsedMessage (actionMsg "profile.get") := by
  exact ⟨rfl, rfl⟩

/-- Claim C9: whenever registration is refused because the password is
shorter than 8 bytes, the username is already indexed, or the email is
already indexed, an error is returned and the whole state — users map,
username index and email index — is exactly the input state. -/
theorem register_atomic_on_failure (hashFn : String → String) (tokenFn : Nat → String)
    (now freshId : Nat) (st : AuthState) (req : RegisterRequest)
    (h : req.password.utf8ByteSize < 8 ∨
      containsKey st.username_index req.username = true ∨
      containsKey st.email_index req.email = true) :
    ∃ e, registerUser hashFn tokenFn now freshId st req = (.error e, st) := by
  unfold registerUser
  by_cases h1 : req.password.utf8ByteSize < 8
  · exact ⟨_, by rw [if_pos h1]⟩
  · rw [if_neg h1]
    by_cases h2 : containsKey st.username_index req.username = true
    · exact ⟨_, by rw [if_pos h2]⟩
    · rw [if_neg h2]
      by_cases h3 : containsKey st.email_index req.email = true
      · exact ⟨_, by rw [if_pos h3]⟩
      · rcases h with h | h | h
        · exact absurd h h1
        · exact absurd h h2
        · exact absurd h h3

/-- Witness for C9: registering with the 5-byte password `short` on the
empty state errors and leaves the state untouched. -/
theorem register_atomic_on_failure_witness :
    ∃ e, registerUser (fun s => s) (fun _ => "token") 0 1 emptyAuthState shortPwReq
      = (.error e, emptyAuthState) :=
  register_atomic_on_failure (fun s => s) (fun _ => "token") 0 1 emptyAuthState shortPwReq
    (Or.inl (by decide))

/-- Removing an absent key leaves the map unchanged. -/
lemma removeKey_of_not_contains [BEq α] {l : List (α × β)} {k : α}
    (h : containsKey l k = false) : removeKey l k = l := by
  induction l with
  | nil => rfl
  | cons p t ih =>
    unfold containsKey at h
    rw [List.any_cons, Bool.or_eq_false_iff] at h
    unfold removeKey at ih ⊢
    rw [List.filter_cons, if_pos (by simp [h.1]), ih h.2]

/-- A removed key is absent from the result. -/
lemma containsKey_removeKey [BEq α] (l : List (α × β)) (k : α) :
    containsKey (removeKey l k) k = false := by
  induction l with
  | nil => rfl
  | cons p t ih =>
    unfold removeKey at ih ⊢
    rw [List.filter_cons]
    by_cases h : (p.1 == k) = true
    · rw [if_neg (by simp [h])]
      exact ih
    · rw [if_pos (by simp [Bool.eq_false_iff.mpr h])]
      unfold containsKey at ih ⊢
      rw [List.any_cons, Bool.or_eq_false_iff]
      exact ⟨Bool.eq_false_iff.mpr h, ih⟩

/-- Claim C10: deleting an invoice always answers the success response;
when the id is absent the stored map is unchanged, and deleting the same
id twice yields exactly the state (and response) of deleting it once. -/
theorem delete_invoice_idempotent (invoices : List (String × α)) (invoice_id : String) :
    (delete_invoice invoices invoice_id).1
      = ServiceResponseM.success "Invoice deleted successfully"
  ∧ (containsKey invoices invoice_id = false →
      (delete_invoice invoices invoice_id).2 = invoices)
  ∧ delete_invoice (delete_invoice invoices invoice_id).2 invoice_id
      = delete_invoice invoices invoice_id := by
  refine ⟨rfl, ?_, ?_⟩
  · intro h
    exact removeKey_of_not_contains h
  · show (ServiceResponseM.success "Invoice deleted successfully",
      removeKey (removeKey invoices invoice_id) invoice_id)
      = (ServiceResponseM.success "Invoice deleted successfully", removeKey invoices invoice_id)
    rw [removeKey_of_not_contains (containsKey_removeKey invoices invoice_id)]

/-- Witness for C10: deleting the absent id `inv-2` from a one-invoice
map succeeds and leaves the map unchanged. -/
theorem delete_invoice_idempotent_witness :
    (delete_invoice [("inv-1", (1 : Nat))] "inv-2").2 = [("inv-1", (1 : Nat))] :=
  (delete_invoice_idempotent [("inv-1", (1 : Nat))] "inv-2").2.1 (by decide)

end RustApps
